import Mathlib

/-!
# Verification of the pixeldot compositing core

Shallow embedding of the pixeldot pixel-art toolkit (files
`sprite.py`, `canvas.py`, `color.py`, `layers.py`, `sheet.py`, `tiles.py`,
`spec.py`).  Python RGBA tuples become a four-field integer structure,
Python `list[list[Color]]` pixel grids become `List (List Color)`,
Python float arithmetic in the compositing formulas is embedded as exact
rational arithmetic, and Python's `int()` conversion (truncation toward
zero) becomes `pyInt`.  Fallible operations (Python `raise`) return
`Option`, with `none` standing for any raised exception.
-/

namespace Pixeldot

/-- RGBA color.  Python `Color = Tuple[int, int, int, int]`; channels are
unbounded Python ints, so the fields are `ℤ` (valid colors keep them in
`[0, 255]`, but nothing in the code enforces that on construction). -/
structure Color where
  r : ℤ
  g : ℤ
  b : ℤ
  a : ℤ
  deriving DecidableEq, Repr

/-- `TRANSPARENT: Color = (0, 0, 0, 0)` from `color.py`. -/
def TRANSPARENT : Color := ⟨0, 0, 0, 0⟩

/-- `BLACK: Color = (0, 0, 0, 255)` from `color.py`. -/
def BLACK : Color := ⟨0, 0, 0, 255⟩

/-- All four channels of a color lie in `[0, 255]` (a valid 8-bit RGBA
value; every color a Palette or image produces satisfies this). -/
def Color.inRange (c : Color) : Prop :=
  0 ≤ c.r ∧ c.r ≤ 255 ∧ 0 ≤ c.g ∧ c.g ≤ 255 ∧
    0 ≤ c.b ∧ c.b ≤ 255 ∧ 0 ≤ c.a ∧ c.a ≤ 255

/-- Python `int(x)` applied to a real number: truncation toward zero. -/
def pyInt (q : ℚ) : ℤ := if 0 ≤ q then ⌊q⌋ else ⌈q⌉

/-- A sprite's pixel grid: list of rows, row-major, top-left origin
(`Sprite._pixels` in `sprite.py`). -/
abbrev Sprite := List (List Color)

namespace Sprite

/-- `Sprite.height` (number of rows). -/
def height (s : Sprite) : ℕ := s.length

/-- `Sprite.width` (length of the first row; `Sprite.__init__` validates
that all rows share it). -/
def width (s : Sprite) : ℕ := (s.headD []).length

/-- The validation performed by `Sprite.__init__`: grid non-empty, first
row non-empty, every row of the same length.  Every Python `Sprite` that
was actually constructed satisfies this. -/
def wf (s : Sprite) : Prop :=
  s ≠ [] ∧ 0 < s.width ∧ ∀ row ∈ s, row.length = s.width

instance (s : Sprite) : Decidable s.wf := by
  unfold wf; infer_instance

/-- `get_pixel(x, y)` for in-bounds coordinates (`self._pixels[y][x]`);
out-of-bounds reads default to `TRANSPARENT` where Python would raise
`IndexError` (the claims only use in-bounds reads). -/
def pixel (s : Sprite) (x y : ℕ) : Color := (s.getD y []).getD x TRANSPARENT

/-- `Sprite.empty(w, h)`: all-transparent grid of the given size. -/
def empty (w h : ℕ) : Sprite := List.replicate h (List.replicate w TRANSPARENT)

/-- `Sprite.crop(x, y, w, h)` from `sprite.py`:
clamp `x`, `y` to `0`, clamp `w`, `h` so the rectangle never exceeds the
source, fail (`ValueError`) if the clamped region is empty, otherwise
slice rows `y .. y+h` and columns `x .. x+w`. -/
def crop (s : Sprite) (x y w h : ℤ) : Option Sprite :=
  let x1 := max 0 x
  let y1 := max 0 y
  let w1 := min w ((s.width : ℤ) - x1)
  let h1 := min h ((s.height : ℤ) - y1)
  if w1 ≤ 0 ∨ h1 ≤ 0 then none
  else
    some (((s.drop y1.toNat).take h1.toNat).map
      (fun row => (row.drop x1.toNat).take w1.toNat))

end Sprite

/-- The per-pixel arithmetic of `Sprite.paste` (`sprite.py` lines
101-119): fully transparent source pixels are skipped, fully opaque ones
overwrite, otherwise standard alpha-over compositing with each final
channel passed through Python's `int()`. -/
def pasteBlend (src dst : Color) : Color :=
  if src.a = 0 then dst
  else if src.a = 255 then src
  else
    let sa : ℚ := src.a / 255
    let da : ℚ := dst.a / 255
    let outa : ℚ := sa + da * (1 - sa)
    if outa = 0 then TRANSPARENT
    else
      ⟨pyInt ((src.r * sa + dst.r * da * (1 - sa)) / outa),
       pyInt ((src.g * sa + dst.g * da * (1 - sa)) / outa),
       pyInt ((src.b * sa + dst.b * da * (1 - sa)) / outa),
       pyInt (outa * 255)⟩

/-- `Sprite.paste(other, x, y)`: composite `other` over `s` at offset
`(x, y)`.  The Python loop writes exactly the target cells `(tx, ty)`
with `ty - y ∈ [0, other.height)` and `tx - x ∈ [0, other.width)`; all
other cells keep the destination pixel. -/
def Sprite.paste (s other : Sprite) (x y : ℤ) : Sprite :=
  s.mapIdx fun ty row =>
    row.mapIdx fun tx dst =>
      let sy : ℤ := (ty : ℤ) - y
      let sx : ℤ := (tx : ℤ) - x
      if 0 ≤ sy ∧ sy < (other.height : ℤ) ∧ 0 ≤ sx ∧ sx < (other.width : ℤ) then
        pasteBlend (other.pixel sx.toNat sy.toNat) dst
      else dst

/-- Build a list by applying a fallible function to each element in
order, failing as soon as one application fails — the shape of every
Python loop in this codebase that builds a list and may `raise` midway. -/
def mapOpt {α β : Type} (f : α → Option β) : List α → Option (List β)
  | [] => some []
  | a :: t =>
      match f a with
      | none => none
      | some b =>
          match mapOpt f t with
          | none => none
          | some m => some (b :: m)

/-! ## Palette and StringCanvas (`color.py`, `canvas.py`) -/

/-- A palette: insertion-ordered character-to-color mapping
(`Palette._map`, a Python dict).  Python dict keys are unique, but none
of the proofs below assume it. -/
abbrev Palette := List (Char × Color)

namespace Palette

/-- `Palette.__getitem__` / `__contains__`: value of the first binding of
the key (Python dicts hold each key once). -/
def find : Palette → Char → Option Color
  | [], _ => none
  | (k, v) :: t, c => if k = c then some v else find t c

/-- `Palette.reverse_lookup(color)`: first key (in insertion order) whose
value equals the color, else `None`. -/
def reverseLookup : Palette → Color → Option Char
  | [], _ => none
  | (k, v) :: t, col => if v = col then some k else reverseLookup t col

end Palette

namespace StringCanvas

/-- `StringCanvas.render(rows)` from `canvas.py`: fail on an empty list,
drop empty rows (`rows = [r for r in rows if r]`), fail if all rows were
empty, fail if any remaining row's length differs from the first's, then
map every character through the palette (failing on an unknown
character). -/
def render (p : Palette) (rows : List (List Char)) : Option Sprite :=
  if rows = [] then none
  else
    let rows2 := rows.filter fun r => !r.isEmpty
    if rows2 = [] then none
    else
      let width := (rows2.headD []).length
      if ∀ r ∈ rows2, r.length = width then
        mapOpt (fun row => mapOpt (fun ch => p.find ch) row) rows2
      else none

/-- `StringCanvas.to_string(sprite, palette)`: for `y` in
`range(sprite.height)` and `x` in `range(sprite.width)`, reverse-look-up
the pixel's color, failing (`KeyError`) when a color has no palette
entry. -/
def toStringRows (p : Palette) (s : Sprite) : Option (List (List Char)) :=
  mapOpt (fun y => mapOpt (fun x => p.reverseLookup (s.pixel x y))
    (List.range s.width)) (List.range s.height)

end StringCanvas

/-! ## Layers (`layers.py`) -/

/-- `BlendMode` enum. -/
inductive BlendMode where
  | NORMAL
  | MULTIPLY
  | SCREEN
  | OVERLAY
  | ADD
  | SUBTRACT
  deriving DecidableEq, Repr

/-- `Layer` dataclass.  `opacity` is a Python float; the embedding uses
exact rationals. -/
structure Layer where
  name : String
  sprite : Sprite
  opacity : ℚ
  visible : Bool
  blendMode : BlendMode
  deriving DecidableEq

/-- One channel of the OVERLAY blend formula. -/
def overlayChan (s d : ℚ) : ℚ :=
  if d < 1/2 then 2 * s * d else 1 - 2 * (1 - s) * (1 - d)

/-- The non-NORMAL branch of `_blend_pixel`: per-channel blended RGB in
normalized `[0,1]` range.  (`_blend_pixel` handles NORMAL before this
dispatch; the NORMAL arm here is never consulted.) -/
def blendRGB (mode : BlendMode) (sr sg sb dr dg db : ℚ) : ℚ × ℚ × ℚ :=
  match mode with
  | .MULTIPLY => (sr * dr, sg * dg, sb * db)
  | .SCREEN =>
      (1 - (1 - sr) * (1 - dr), 1 - (1 - sg) * (1 - dg), 1 - (1 - sb) * (1 - db))
  | .OVERLAY => (overlayChan sr dr, overlayChan sg dg, overlayChan sb db)
  | .ADD => (min (sr + dr) 1, min (sg + dg) 1, min (sb + db) 1)
  | .SUBTRACT => (max (dr - sr) 0, max (dg - sg) 0, max (db - sb) 0)
  | .NORMAL => (sr, sg, sb)

/-- `_blend_pixel(src, dst, mode, opacity)` from `layers.py`. -/
def blendPixel (src dst : Color) (mode : BlendMode) (opacity : ℚ) : Color :=
  let sa : ℚ := src.a / 255 * opacity
  if sa = 0 then dst
  else
    let da : ℚ := dst.a / 255
    if mode = .NORMAL then
      let outa := sa + da * (1 - sa)
      if outa = 0 then TRANSPARENT
      else
        ⟨pyInt ((src.r * sa + dst.r * da * (1 - sa)) / outa),
         pyInt ((src.g * sa + dst.g * da * (1 - sa)) / outa),
         pyInt ((src.b * sa + dst.b * da * (1 - sa)) / outa),
         pyInt (outa * 255)⟩
    else
      let sr : ℚ := src.r / 255
      let sg : ℚ := src.g / 255
      let sb : ℚ := src.b / 255
      let dr : ℚ := dst.r / 255
      let dg : ℚ := dst.g / 255
      let db : ℚ := dst.b / 255
      let bs := blendRGB mode sr sg sb dr dg db
      let outa := sa + da * (1 - sa)
      if outa = 0 then TRANSPARENT
      else
        ⟨pyInt ((bs.1 * sa + dr * da * (1 - sa)) / outa * 255),
         pyInt ((bs.2.1 * sa + dg * da * (1 - sa)) / outa * 255),
         pyInt ((bs.2.2 * sa + db * da * (1 - sa)) / outa * 255),
         pyInt (outa * 255)⟩

/-- `LayerStack`: fixed size plus a bottom-to-top list of layers. -/
structure LayerStack where
  width : ℕ
  height : ℕ
  layers : List Layer

namespace LayerStack

/-- `LayerStack.layer_names` (bottom to top). -/
def layerNames (st : LayerStack) : List String := st.layers.map (·.name)

/-- `LayerStack.add_layer(name, sprite, opacity, blend_mode, position)`:
fail on duplicate name, fail on size mismatch, otherwise append
(`position=None`) or insert at the (clamped) position.  No check touches
`opacity`. -/
def addLayer (st : LayerStack) (name : String) (sprite : Sprite)
    (opacity : ℚ) (mode : BlendMode) (position : Option ℕ) : Option LayerStack :=
  if st.layers.any fun l => l.name == name then none
  else if sprite.width ≠ st.width ∨ sprite.height ≠ st.height then none
  else
    let layer : Layer := ⟨name, sprite, opacity, true, mode⟩
    match position with
    | none => some { st with layers := st.layers ++ [layer] }
    | some p => some { st with layers := st.layers.take p ++ layer :: st.layers.drop p }

/-- Update the first layer carrying the given name (Python's `get_layer`
returns the first match and the caller mutates it); `none` models the
`KeyError` when the name is absent. -/
def updateFirst : List Layer → String → (Layer → Layer) → Option (List Layer)
  | [], _, _ => none
  | l :: t, name, f =>
      if l.name = name then some (f l :: t)
      else (updateFirst t name f).map (l :: ·)

/-- `LayerStack.set_opacity(name, opacity)`: no validation of the value. -/
def setOpacity (st : LayerStack) (name : String) (o : ℚ) : Option LayerStack :=
  (updateFirst st.layers name fun l => { l with opacity := o }).map
    fun ls => { st with layers := ls }

/-- `LayerStack.reorder(names)`: fail unless `set(names)` equals the set
of current layer names, then rebuild the layer list as
`[by_name[n] for n in names]` (`by_name` is a dict built from the layers,
so a later layer with the same name wins — hence `reverse.find?`). -/
def reorder (st : LayerStack) (names : List String) : Option LayerStack :=
  if (∀ n ∈ names, n ∈ st.layerNames) ∧ (∀ n ∈ st.layerNames, n ∈ names) then
    (mapOpt (fun n => st.layers.reverse.find? fun l => l.name == n) names).map
      fun ls => { st with layers := ls }
  else none

/-- One pass of `LayerStack.flatten`'s inner loops: blend a single
layer's pixels over the accumulated grid (skipping fully transparent
source pixels). -/
def applyLayer (l : Layer) (grid : Sprite) : Sprite :=
  grid.mapIdx fun y row =>
    row.mapIdx fun x dst =>
      let src := l.sprite.pixel x y
      if src.a = 0 then dst else blendPixel src dst l.blendMode l.opacity

/-- `LayerStack.flatten()`: fold all visible layers bottom-to-top over an
all-transparent canvas. -/
def flatten (st : LayerStack) : Sprite :=
  st.layers.foldl (fun grid l => if l.visible then applyLayer l grid else grid)
    (Sprite.empty st.width st.height)

end LayerStack

/-! ## Sheets and tiles (`sheet.py`, `tiles.py`) -/

/-- `StripSheet.__init__` validation: at least one frame, all frames the
size of the first. -/
def stripCheck (frames : List Sprite) : Bool :=
  match frames with
  | [] => false
  | f :: _ =>
      frames.all fun g => g.width == f.width && g.height == f.height

/-- `StripSheet(frames).to_sprite()`: validate, then paste each frame at
`(i * frame_width, 0)` onto an empty `frame_width * len(frames)` by
`frame_height` canvas. -/
def stripToSprite (frames : List Sprite) : Option Sprite :=
  if stripCheck frames then
    let fw := (frames.headD []).width
    let fh := (frames.headD []).height
    some (frames.enum.foldl
      (fun acc p => acc.paste p.2 (p.1 * fw) 0)
      (Sprite.empty (fw * frames.length) fh))
  else none

/-- `GridSheet(sprites, columns, padding).to_sprite()` (`cell_size` is
never passed by the spec evaluator, so cells are the max width/height of
the inputs): validate non-emptiness and `columns >= 1`, then paste each
sprite row-major into its grid cell. -/
def gridToSprite (sprites : List (String × Sprite)) (columns padding : ℕ) : Option Sprite :=
  if sprites = [] then none
  else if columns < 1 then none
  else
    let cellW := (sprites.map fun p => p.2.width).foldl max 0
    let cellH := (sprites.map fun p => p.2.height).foldl max 0
    let rows := (sprites.length + columns - 1) / columns
    let totalW := max 1 (columns * (cellW + padding) - padding)
    let totalH := max 1 (rows * (cellH + padding) - padding)
    some (sprites.enum.foldl
      (fun acc p =>
        acc.paste p.2.2 ((p.1 % columns) * (cellW + padding))
          ((p.1 / columns) * (cellH + padding)))
      (Sprite.empty totalW totalH))

/-- `TileSet.__init__` validation: at least one tile and all tiles the
size of the first (keys are `Char`, so the 1-character check is implicit
in the embedding); returns the common tile size. -/
def tileSetCheck (tiles : List (Char × Sprite)) : Option (ℕ × ℕ) :=
  match tiles with
  | [] => none
  | (_, f) :: _ =>
      if tiles.all fun t => t.2.width == f.width && t.2.height == f.height then
        some (f.width, f.height)
      else none

/-- Tile lookup (`TileSet.__getitem__` on a dict; keys unique). -/
def tileFind : List (Char × Sprite) → Char → Option Sprite
  | [], _ => none
  | (k, v) :: t, c => if k = c then some v else tileFind t c

/-- `TileMap(tileset, grid).to_sprite()`: drop empty grid rows, validate
rectangularity and that every character has a tile, then paste tile
`grid[gy][gx]` at `(gx * tile_w, gy * tile_h)`. -/
def tileMapToSprite (tiles : List (Char × Sprite)) (grid : List (List Char)) : Option Sprite :=
  match tileSetCheck tiles with
  | none => none
  | some (tw, th) =>
    let rows := grid.filter fun r => !r.isEmpty
    if rows = [] then none
    else
      let width := (rows.headD []).length
      if (∀ r ∈ rows, r.length = width) ∧
          ∀ r ∈ rows, ∀ ch ∈ r, (tileFind tiles ch).isSome then
        some (rows.enum.foldl
          (fun acc p =>
            p.2.enum.foldl
              (fun acc2 q =>
                acc2.paste ((tileFind tiles q.2).getD []) (q.1 * tw) (p.1 * th))
              acc)
          (Sprite.empty (width * tw) (rows.length * th)))
      else none

/-! ## Spec evaluator (`spec.py`) -/

/-- One entry of a `layers` sprite definition: either a bare name or a
record with a sprite reference, optional layer name (defaulting to the
reference), opacity (defaulting to 1) and blend mode (defaulting to
NORMAL). -/
inductive LayerEntry where
  | simple (ref : String)
  | full (sprite : String) (lname : Option String) (opacity : ℚ) (mode : BlendMode)
  deriving Repr

/-- The sprite reference of a layer entry (`first_entry["sprite"]` /
the bare string). -/
def LayerEntry.ref : LayerEntry → String
  | .simple r => r
  | .full s _ _ _ => s

/-- The layer name of an entry (`layer_def.get("name", ref)`). -/
def LayerEntry.layerName : LayerEntry → String
  | .simple r => r
  | .full s n _ _ => n.getD s

/-- The opacity of an entry (`layer_def.get("opacity", 1.0)`). -/
def LayerEntry.opacity : LayerEntry → ℚ
  | .simple _ => 1
  | .full _ _ o _ => o

/-- The blend mode of an entry (`layer_def.get("blend_mode", "normal")`). -/
def LayerEntry.mode : LayerEntry → BlendMode
  | .simple _ => .NORMAL
  | .full _ _ _ m => m

/-- A parsed sprite definition (`Spec.sprite_defs` values): `type` plus
the type-specific fields, with YAML defaults already applied
(`columns=4`, `padding=0`).  The post-effect (`outline`/`shadow`) and
output-path fields play no role in name resolution and are omitted. -/
inductive Defn where
  | block (rows : List (List Char))
  | strip (frames : List String)
  | grid (sprites : List (String × String)) (columns padding : ℕ)
  | tilemap (tileset : List (Char × String)) (grid : List (List Char))
  | layers (width height : Option ℕ) (entries : List LayerEntry)
  deriving Repr

/-- The memo table `results` (a Python dict: insertion-ordered,
assignment keeps the first position of an existing key). -/
abbrev Results := List (String × Sprite)

/-- First-match association lookup (Python dict access; keys unique). -/
def assocFind {α : Type} : List (String × α) → String → Option α
  | [], _ => none
  | (k, v) :: t, n => if k = n then some v else assocFind t n

/-- Python dict assignment `d[k] = v`: replace the first binding of `k`
in place, or append a new one. -/
def assocSet : Results → String → Sprite → Results
  | [], n, s => [(n, s)]
  | (k, v) :: t, n, s => if k = n then (k, s) :: t else (k, v) :: assocSet t n s

/-- Resolve a list of sprite references in order, threading the memo
table (the list comprehensions over `self._ensure_rendered` in
`_render_strip` / `_render_grid` / `_render_tilemap`). -/
def resolveList {κ : Type} (resolve : String → Results → Option (Results × Sprite)) :
    List (κ × String) → Results → Option (Results × List (κ × Sprite))
  | [], results => some (results, [])
  | (k, n) :: t, results =>
      match resolve n results with
      | none => none
      | some (results2, s) =>
          match resolveList resolve t results2 with
          | none => none
          | some (results3, ss) => some (results3, (k, s) :: ss)

/-- The layer-building loop of `_render_layers`: resolve each entry's
sprite and `add_layer` it (any `ValueError` from `add_layer` aborts). -/
def buildStack (resolve : String → Results → Option (Results × Sprite)) :
    List LayerEntry → Results → LayerStack → Option (Results × LayerStack)
  | [], results, st => some (results, st)
  | e :: t, results, st =>
      match resolve e.ref results with
      | none => none
      | some (results2, s) =>
          match st.addLayer e.layerName s e.opacity e.mode none with
          | none => none
          | some st2 => buildStack resolve t results2 st2

/-- The body of `_ensure_rendered` once the memo missed: dispatch on the
definition type, resolving dependencies through `resolve`
(`_render_block` / `_render_strip` / `_render_grid` / `_render_tilemap`
/ `_render_layers`; `render_block`'s dedent/blank-line preprocessing is
textual and name-free, so the embedding feeds the block's rows straight
to `StringCanvas.render`). -/
def renderDefn (pal : Palette)
    (resolve : String → Results → Option (Results × Sprite))
    (defn : Defn) (results : Results) : Option (Results × Sprite) :=
  match defn with
  | .block rows =>
      match StringCanvas.render pal rows with
      | none => none
      | some s => some (results, s)
  | .strip frames =>
      if frames = [] then none
      else
        match resolveList resolve (frames.map fun n => ((), n)) results with
        | none => none
        | some (results2, ss) =>
            match stripToSprite (ss.map (·.2)) with
            | none => none
            | some s => some (results2, s)
  | .grid refs columns padding =>
      if refs = [] then none
      else
        match resolveList resolve refs results with
        | none => none
        | some (results2, pairs) =>
            match gridToSprite pairs columns padding with
            | none => none
            | some s => some (results2, s)
  | .tilemap tilesetRefs grid =>
      if tilesetRefs = [] then none
      else if grid = [] then none
      else
        match resolveList resolve tilesetRefs results with
        | none => none
        | some (results2, tiles) =>
            match tileMapToSprite tiles grid with
            | none => none
            | some s => some (results2, s)
  | .layers width height entries =>
      match entries with
      | [] => none
      | first :: _ =>
          match resolve first.ref results with
          | none => none
          | some (results2, firstSprite) =>
              let w := width.getD firstSprite.width
              let h := height.getD firstSprite.height
              match buildStack resolve entries results2 ⟨w, h, []⟩ with
              | none => none
              | some (results3, stack) => some (results3, stack.flatten)

/-- `Spec._ensure_rendered(name, results)`, with a fuel parameter to
bound Python's unguarded recursion (a cyclic spec exhausts the Python
call stack; here it exhausts the fuel and returns `none`).  On a memo
hit the memoized sprite is returned unchanged; otherwise the definition
is rendered, stored, and returned. -/
def ensureRendered : ℕ → List (String × Defn) → Palette → String → Results →
    Option (Results × Sprite)
  | 0, _, _, _, _ => none
  | fuel + 1, defs, pal, name, results =>
      match assocFind results name with
      | some s => some (results, s)
      | none =>
          match assocFind defs name with
          | none => none
          | some defn =>
              match renderDefn pal (ensureRendered fuel defs pal) defn results with
              | none => none
              | some (results2, sprite) => some (assocSet results2 name sprite, sprite)

/-- The preservation property of a resolver: a successful call never
drops or changes an existing memo entry. -/
def PreservesMemo (resolve : String → Results → Option (Results × Sprite)) : Prop :=
  ∀ n rs rs2 sp, resolve n rs = some (rs2, sp) →
    ∀ k v, assocFind rs k = some v → assocFind rs2 k = some v

/-! ## General helper lemmas -/

theorem pyInt_intCast (c : ℤ) : pyInt (c : ℚ) = c := by
  unfold pyInt
  split
  · exact Int.floor_intCast c
  · exact Int.ceil_intCast c

theorem pyInt_of_nonneg {q : ℚ} (h : 0 ≤ q) : pyInt q = ⌊q⌋ := if_pos h

theorem pyInt_range {q : ℚ} (h0 : 0 ≤ q) (h1 : q ≤ 255) :
    0 ≤ pyInt q ∧ pyInt q ≤ 255 := by
  rw [pyInt_of_nonneg h0]
  constructor
  · exact Int.floor_nonneg.2 h0
  · have : (⌊q⌋ : ℚ) ≤ 255 := le_trans (Int.floor_le q) h1
    exact_mod_cast this

theorem headD_eq_getD {α : Type} (l : List α) (d : α) : l.headD d = l.getD 0 d := by
  cases l <;> rfl

theorem getD_take {α : Type} (l : List α) (n i : ℕ) (d : α) (h : i < n) :
    (l.take n).getD i d = l.getD i d := by
  rw [List.getD_eq_getElem?_getD, List.getD_eq_getElem?_getD,
    List.getElem?_take, if_pos h]

theorem getD_drop {α : Type} (l : List α) (n i : ℕ) (d : α) :
    (l.drop n).getD i d = l.getD (n + i) d := by
  rw [List.getD_eq_getElem?_getD, List.getD_eq_getElem?_getD,
    List.getElem?_drop]

theorem getD_map_of_lt {α β : Type} (f : α → β) (l : List α) (i : ℕ)
    (d : α) (d' : β) (h : i < l.length) :
    (l.map f).getD i d' = f (l.getD i d) := by
  rw [List.getD_eq_getElem?_getD, List.getD_eq_getElem?_getD,
    List.getElem?_map]
  rw [List.getElem?_eq_getElem h]
  rfl

theorem mapOpt_forall2 {α β : Type} (f : α → Option β) :
    ∀ (l : List α) (m : List β),
      mapOpt f l = some m ↔ List.Forall₂ (fun a b => f a = some b) l m := by
  intro l
  induction l with
  | nil =>
      intro m
      constructor
      · intro hm
        injection hm with hm
        subst hm; exact .nil
      · intro hm; cases hm; rfl
  | cons a t ih =>
      intro m
      constructor
      · intro hm
        unfold mapOpt at hm
        cases hfa : f a with
        | none => rw [hfa] at hm; exact absurd hm (by simp)
        | some b =>
            rw [hfa] at hm
            cases hft : mapOpt f t with
            | none => rw [hft] at hm; exact absurd hm (by simp)
            | some m2 =>
                rw [hft] at hm
                simp only [Option.some_inj] at hm
                subst hm
                exact .cons hfa ((ih m2).1 hft)
      · intro hm
        cases hm with
        | cons hab htm =>
            rename_i b m2
            unfold mapOpt
            rw [hab, ((ih m2).2 htm)]

theorem mapOpt_isSome {α β : Type} (f : α → Option β) (l : List α) :
    (mapOpt f l).isSome ↔ ∀ a ∈ l, (f a).isSome := by
  induction l with
  | nil => simp [mapOpt]
  | cons a t ih =>
      unfold mapOpt
      cases hfa : f a with
      | none =>
          simp only [Option.isSome_none, Bool.false_eq_true, false_iff, not_forall]
          exact ⟨a, List.mem_cons_self a t, by simp [hfa]⟩
      | some b =>
          cases hft : mapOpt f t with
          | none =>
              rw [hft] at ih
              simp only [Option.isSome_none, Bool.false_eq_true, false_iff,
                not_forall] at ih ⊢
              obtain ⟨c, hc, hcprop⟩ := ih
              exact ⟨c, List.mem_cons_of_mem a hc, hcprop⟩
          | some m =>
              rw [hft] at ih
              simp only [Option.isSome_some, true_iff] at ih
              simp only [Option.isSome_some, true_iff]
              intro c hc
              rcases List.mem_cons.1 hc with rfl | hc2
              · simp [hfa]
              · exact ih c hc2

theorem mapOpt_id {α : Type} (f : α → Option α) (l : List α)
    (h : ∀ a ∈ l, f a = some a) : mapOpt f l = some l := by
  induction l with
  | nil => rfl
  | cons a t ih =>
      unfold mapOpt
      rw [h a (List.mem_cons_self a t),
        ih fun c hc => h c (List.mem_cons_of_mem a hc)]

theorem mapOpt_map {α β γ : Type} (g : α → β) (f : β → Option γ) (l : List α) :
    mapOpt f (l.map g) = mapOpt (fun a => f (g a)) l := by
  induction l with
  | nil => rfl
  | cons a t ih => rw [List.map_cons]; unfold mapOpt; rw [ih]

theorem mapOpt_congr {α β : Type} {f g : α → Option β} {l : List α}
    (h : ∀ a ∈ l, f a = g a) : mapOpt f l = mapOpt g l := by
  induction l with
  | nil => rfl
  | cons a t ih =>
      unfold mapOpt
      rw [h a (List.mem_cons_self a t),
        ih fun c hc => h c (List.mem_cons_of_mem a hc)]

theorem mapOpt_range_getD {α β : Type} (f : α → Option β) (l : List α) (d : α) :
    mapOpt (fun i => f (l.getD i d)) (List.range l.length) = mapOpt f l := by
  induction l with
  | nil => rfl
  | cons a t ih =>
      rw [List.length_cons, List.range_succ_eq_map]
      unfold mapOpt
      rw [mapOpt_map]
      simp only [List.getD_cons_zero, List.getD_cons_succ, Nat.succ_eq_add_one]
      rw [ih]

/-! ## C1: crop -/

/-- C1: `crop(x, y, w, h)` — what the code actually computes.  The crop
succeeds exactly when the clamped width `min w (W - max 0 x)` and height
`min h (H - max 0 y)` are positive, and then returns the rectangle of
that clamped size anchored at `(max 0 x, max 0 y)`.  (This differs from
the claim's "intersection of `[x, x+w)` with `[0, W)`" when `x < 0`: the
code keeps the full requested width after clamping the origin.) -/
theorem crop_clamped (s : Sprite) (hwf : s.wf) (x y w h : ℤ) :
    (s.crop x y w h = none ↔
      min w ((s.width : ℤ) - max 0 x) ≤ 0 ∨ min h ((s.height : ℤ) - max 0 y) ≤ 0) ∧
    ∀ t, s.crop x y w h = some t →
      t.height = (min h ((s.height : ℤ) - max 0 y)).toNat ∧
      t.width = (min w ((s.width : ℤ) - max 0 x)).toNat ∧
      ∀ i j, i < t.width → j < t.height →
        t.pixel i j = s.pixel ((max 0 x).toNat + i) ((max 0 y).toNat + j) := by
  obtain ⟨hne, hw0, hrows⟩ := hwf
  set W : ℕ := s.width with hW
  set H : ℕ := s.height with hH
  set x1 : ℤ := max 0 x with hx1
  set y1 : ℤ := max 0 y with hy1
  set w1 : ℤ := min w ((W : ℤ) - x1) with hw1
  set h1 : ℤ := min h ((H : ℤ) - y1) with hh1
  by_cases hcond : w1 ≤ 0 ∨ h1 ≤ 0
  · constructor
    · simp [Sprite.crop, hcond, ← hx1, ← hy1, ← hw1, ← hh1, ← hW, ← hH]
    · intro t ht
      simp [Sprite.crop, hcond, ← hx1, ← hy1, ← hw1, ← hh1, ← hW, ← hH] at ht
  · have hcrop : s.crop x y w h =
        some (((s.drop y1.toNat).take h1.toNat).map
          (fun row => (row.drop x1.toNat).take w1.toNat)) := by
      simp [Sprite.crop, hcond, ← hx1, ← hy1, ← hw1, ← hh1, ← hW, ← hH]
    push_neg at hcond
    obtain ⟨hwpos, hhpos⟩ := hcond
    have hx1n : 0 ≤ x1 := le_max_left 0 x
    have hy1n : 0 ≤ y1 := le_max_left 0 y
    have hwle : w1 ≤ (W : ℤ) - x1 := min_le_right _ _
    have hhle : h1 ≤ (H : ℤ) - y1 := min_le_right _ _
    have hlenH : s.length = H := rfl
    have hyH : y1.toNat + h1.toNat ≤ H := by omega
    have hxW : x1.toNat + w1.toNat ≤ W := by omega
    have hh1pos : 0 < h1.toNat := by omega
    have hw1pos : 0 < w1.toNat := by omega
    have hrowlen : ((s.drop y1.toNat).take h1.toNat).length = h1.toNat := by
      rw [List.length_take, List.length_drop, hlenH]; omega
    have hrowget : ∀ j : ℕ, j < h1.toNat →
        ((s.drop y1.toNat).take h1.toNat).getD j [] = s.getD (y1.toNat + j) [] := by
      intro j hj
      rw [getD_take _ _ _ _ hj, getD_drop]
    have hrowW : ∀ j : ℕ, j < h1.toNat → (s.getD (y1.toNat + j) []).length = W := by
      intro j hj
      have hlt : y1.toNat + j < s.length := by omega
      rw [List.getD_eq_getElem _ _ hlt]
      exact hrows _ (List.getElem_mem _)
    have hcollen : ∀ j : ℕ, j < h1.toNat →
        (((s.getD (y1.toNat + j) []).drop x1.toNat).take w1.toNat).length
          = w1.toNat := by
      intro j hj
      rw [List.length_take, List.length_drop, hrowW j hj]
      omega
    have hmaplen :
        (((s.drop y1.toNat).take h1.toNat).map
          fun row => (row.drop x1.toNat).take w1.toNat).length = h1.toNat := by
      rw [List.length_map, hrowlen]
    have hmapget : ∀ j : ℕ, j < h1.toNat →
        (((s.drop y1.toNat).take h1.toNat).map
          (fun row => (row.drop x1.toNat).take w1.toNat)).getD j []
          = ((s.getD (y1.toNat + j) []).drop x1.toNat).take w1.toNat := by
      intro j hj
      rw [getD_map_of_lt _ _ _ [] _ (by omega), hrowget j hj]
    constructor
    · rw [hcrop]; simp; omega
    · intro t ht
      rw [hcrop] at ht
      injection ht with ht
      subst ht
      have hwidth :
          Sprite.width (((s.drop y1.toNat).take h1.toNat).map
            fun row => (row.drop x1.toNat).take w1.toNat) = w1.toNat := by
        unfold Sprite.width
        rw [headD_eq_getD, hmapget 0 (by omega), hcollen 0 (by omega)]
      refine ⟨hmaplen, hwidth, ?_⟩
      intro i j hi hj
      rw [hwidth] at hi
      unfold Sprite.height at hj
      rw [hmaplen] at hj
      unfold Sprite.pixel
      rw [hmapget j hj, getD_take _ _ _ _ hi, getD_drop]

/-- C1 witness: the clamped-crop characterization at a concrete 1×1
sprite and the in-bounds request `crop(0, 0, 1, 1)`. -/
theorem crop_clamped_witness :
    Sprite.wf [[⟨1, 2, 3, 4⟩]] ∧
    ((Sprite.crop [[⟨1, 2, 3, 4⟩]] 0 0 1 1 = none ↔
        min 1 ((Sprite.width [[⟨1, 2, 3, 4⟩]] : ℤ) - max 0 0) ≤ 0 ∨
        min 1 ((Sprite.height [[⟨1, 2, 3, 4⟩]] : ℤ) - max 0 0) ≤ 0) ∧
      ∀ t, Sprite.crop [[⟨1, 2, 3, 4⟩]] 0 0 1 1 = some t →
        Sprite.height t =
          (min 1 ((Sprite.height [[⟨1, 2, 3, 4⟩]] : ℤ) - max 0 0)).toNat ∧
        Sprite.width t =
          (min 1 ((Sprite.width [[⟨1, 2, 3, 4⟩]] : ℤ) - max 0 0)).toNat ∧
        ∀ i j, i < Sprite.width t → j < Sprite.height t →
          Sprite.pixel t i j =
            Sprite.pixel [[⟨1, 2, 3, 4⟩]]
              ((max 0 0 : ℤ).toNat + i) ((max 0 0 : ℤ).toNat + j)) :=
  ⟨by decide, crop_clamped [[⟨1, 2, 3, 4⟩]] (by decide) 0 0 1 1⟩

/-- C1 counterexample to the claim as stated: on a 2×1 sprite,
`crop(-1, 0, 1, 1)` succeeds and returns the first pixel, although the
requested rectangle `[-1, 0) × [0, 1)` meets the bounds `[0, 2) × [0, 1)`
in a zero-area region (`min (x+w) W - max x 0 = 0`), where the claim
demands failure. -/
theorem crop_claim_counterexample :
    Sprite.crop [[⟨1, 1, 1, 255⟩, ⟨2, 2, 2, 255⟩]] (-1) 0 1 1 =
      some [[⟨1, 1, 1, 255⟩]] ∧
    min ((-1 : ℤ) + 1) ((Sprite.width [[⟨1, 1, 1, 255⟩, ⟨2, 2, 2, 255⟩]] : ℤ)) -
      max (-1 : ℤ) 0 = 0 := by
  constructor
  · rfl
  · decide

/-! ## C2: paste identity on an empty destination -/

theorem pasteBlend_transparent_dst (src : Color)
    (hsrc : src = TRANSPARENT ∨ src.a = 255) :
    pasteBlend src TRANSPARENT = src := by
  rcases hsrc with rfl | h255
  · rfl
  · unfold pasteBlend
    by_cases h0 : src.a = 0
    · rw [h0] at h255; norm_num at h255
    · rw [if_neg h0, if_pos h255]

/-- C2, amended: pasting `S` at `(0, 0)` onto `Sprite.empty(S.width,
S.height)` reproduces `S` exactly for every sprite whose pixels are each
either fully opaque (`alpha = 255`, copied verbatim) or literally
`(0, 0, 0, 0)` (skipped over the matching transparent canvas).  Both
restrictions are forced by the code: a transparent source pixel with
other RGB values is skipped and comes back as `(0,0,0,0)`, and a
semi-transparent pixel goes through float compositing, where
`int((c*sa)/sa)` can fall below `c` (channel 11 at alpha 3 yields 10 in
IEEE doubles), so only the skip and direct-copy branches — which perform
no channel arithmetic at all — reproduce the pixel exactly. -/
theorem paste_identity_on_empty (S : Sprite) (hwf : S.wf)
    (htr : ∀ row ∈ S, ∀ c ∈ row, c = TRANSPARENT ∨ c.a = 255) :
    (Sprite.empty S.width S.height).paste S 0 0 = S := by
  obtain ⟨hne, hw0, hrows⟩ := hwf
  unfold Sprite.paste Sprite.empty
  have hlen1 : ∀ (f : ℕ → List Color → List Color),
      (List.mapIdx f (List.replicate S.height (List.replicate S.width TRANSPARENT))).length
        = S.height := by
    intro f
    rw [List.length_mapIdx, List.length_replicate]
  apply List.ext_getElem
  · rw [hlen1]; rfl
  · intro j hj hj2
    rw [List.getElem_mapIdx, List.getElem_replicate]
    have hjH : j < S.height := by
      have := hj; rw [hlen1] at this; exact this
    have hjS : j < S.length := hjH
    have hrowlen : S[j].length = S.width := hrows _ (List.getElem_mem _)
    apply List.ext_getElem
    · rw [List.length_mapIdx, List.length_replicate, hrowlen]
    · intro i hi hi2
      rw [List.getElem_mapIdx, List.getElem_replicate]
      have hiW : i < S.width := by
        have := hi
        rw [List.length_mapIdx, List.length_replicate] at this
        exact this
      have hcond : (0 : ℤ) ≤ (j : ℤ) - 0 ∧ (j : ℤ) - 0 < (S.height : ℤ) ∧
          (0 : ℤ) ≤ (i : ℤ) - 0 ∧ (i : ℤ) - 0 < (S.width : ℤ) := by
        refine ⟨by omega, ?_, by omega, ?_⟩ <;> omega
      rw [if_pos hcond]
      have hsx : ((i : ℤ) - 0).toNat = i := by omega
      have hsy : ((j : ℤ) - 0).toNat = j := by omega
      rw [hsx, hsy]
      have hiJ : i < S[j].length := by rw [hrowlen]; exact hiW
      have hpix : S.pixel i j = S[j][i] := by
        unfold Sprite.pixel
        rw [List.getD_eq_getElem _ _ hjS, List.getD_eq_getElem _ _ hiJ]
      rw [hpix]
      exact pasteBlend_transparent_dst _
        (htr _ (List.getElem_mem _) _ (List.getElem_mem _))

/-- C2 witness: the amended identity at a concrete 1×2 sprite with one
fully opaque and one fully transparent `(0,0,0,0)` pixel. -/
theorem paste_identity_on_empty_witness :
    Sprite.wf [[⟨10, 20, 30, 255⟩, ⟨0, 0, 0, 0⟩]] ∧
    (∀ row ∈ ([[⟨10, 20, 30, 255⟩, ⟨0, 0, 0, 0⟩]] : Sprite),
      ∀ c ∈ row, c = TRANSPARENT ∨ Color.a c = 255) ∧
    (Sprite.empty (Sprite.width [[⟨10, 20, 30, 255⟩, ⟨0, 0, 0, 0⟩]])
        (Sprite.height [[⟨10, 20, 30, 255⟩, ⟨0, 0, 0, 0⟩]])).paste
      [[⟨10, 20, 30, 255⟩, ⟨0, 0, 0, 0⟩]] 0 0
      = [[⟨10, 20, 30, 255⟩, ⟨0, 0, 0, 0⟩]] :=
  ⟨by decide, by decide,
    paste_identity_on_empty [[⟨10, 20, 30, 255⟩, ⟨0, 0, 0, 0⟩]]
      (by decide) (by decide)⟩

/-- C2 counterexample to the claim as stated: a sprite whose single
pixel is fully transparent but has non-zero RGB components.  Pasting it
onto an empty canvas of its size yields `(0,0,0,0)` there, which is not
equal to the original pixel under the structural equality of
`Sprite.__eq__`. -/
theorem paste_identity_counterexample :
    (Sprite.empty 1 1).paste [[⟨5, 6, 7, 0⟩]] 0 0 = [[⟨0, 0, 0, 0⟩]] ∧
    ([[⟨5, 6, 7, 0⟩]] : Sprite) ≠ [[⟨0, 0, 0, 0⟩]] := by
  constructor
  · rfl
  · decide

/-! ## C3 and C5: StringCanvas render and the round trip -/

theorem mapOpt_some_eq_map {α β : Type} {f : α → Option β} {l : List α} {m : List β}
    (h : mapOpt f l = some m) (d : β) : m = l.map fun a => (f a).getD d := by
  have h2 := (mapOpt_forall2 f l m).1 h
  clear h
  induction h2 with
  | nil => rfl
  | cons hab htm ih =>
      rw [List.map_cons, ← ih, hab]
      rfl

theorem mapOpt_mapOpt_eq_map {α β : Type} {f : α → Option β}
    {l : List (List α)} {m : List (List β)}
    (h : mapOpt (fun r => mapOpt f r) l = some m) (d : β) :
    m = l.map fun r => r.map fun a => (f a).getD d := by
  have h2 := (mapOpt_forall2 (fun r => mapOpt f r) l m).1 h
  clear h
  induction h2 with
  | nil => rfl
  | cons hab htm ih =>
      rw [List.map_cons, ← ih, ← mapOpt_some_eq_map hab d]

theorem Palette.find_mem : ∀ {p : Palette} {c : Char} {v : Color},
    p.find c = some v → (c, v) ∈ p := by
  intro p
  induction p with
  | nil => intro c v h; exact absurd h (by simp [Palette.find])
  | cons e t ih =>
      intro c v h
      obtain ⟨k, w⟩ := e
      unfold Palette.find at h
      by_cases hk : k = c
      · rw [if_pos hk] at h
        injection h with h
        subst hk; subst h
        exact List.mem_cons_self _ _
      · rw [if_neg hk] at h
        exact List.mem_cons_of_mem _ (ih h)

theorem Palette.reverseLookup_of_find (p : Palette)
    (hinj : ∀ e1 ∈ p, ∀ e2 ∈ p, e1.2 = e2.2 → e1.1 = e2.1)
    {ch : Char} {col : Color} (hfind : p.find ch = some col) :
    p.reverseLookup col = some ch := by
  induction p with
  | nil => exact absurd hfind (by simp [Palette.find])
  | cons e t ih =>
      obtain ⟨k, v⟩ := e
      unfold Palette.find at hfind
      unfold Palette.reverseLookup
      by_cases hk : k = ch
      · rw [if_pos hk] at hfind
        injection hfind with hv
        rw [if_pos hv, hk]
      · rw [if_neg hk] at hfind
        by_cases hv : v = col
        · exfalso
          apply hk
          exact hinj (k, v) (List.mem_cons_self _ _) (ch, col)
            (List.mem_cons_of_mem _ (Palette.find_mem hfind)) (by simpa using hv)
        · rw [if_neg hv]
          exact ih (fun e1 h1 e2 h2 =>
            hinj e1 (List.mem_cons_of_mem _ h1) e2 (List.mem_cons_of_mem _ h2)) hfind

/-- C3, amended: `render(rows)` first discards empty rows
(`rows = [r for r in rows if r]`).  It fails exactly when the input list
is empty, all rows are empty, some remaining row's length differs from
the first remaining row's, or some character is missing from the
palette; on success the sprite is the remaining rows mapped through the
palette, so its height is the number of *non-empty* rows.  (A list that
mixes empty and non-empty rows does not fail.) -/
theorem render_characterization (p : Palette) (rows : List (List Char)) :
    ((StringCanvas.render p rows).isSome ↔
      rows.filter (fun r => !r.isEmpty) ≠ [] ∧
      (∀ r ∈ rows.filter (fun r => !r.isEmpty),
        r.length = ((rows.filter (fun r => !r.isEmpty)).headD []).length) ∧
      (∀ r ∈ rows.filter (fun r => !r.isEmpty), ∀ ch ∈ r, (p.find ch).isSome)) ∧
    ∀ s, StringCanvas.render p rows = some s →
      s = (rows.filter (fun r => !r.isEmpty)).map
            (fun r => r.map fun ch => (p.find ch).getD TRANSPARENT) ∧
      s.height = (rows.filter (fun r => !r.isEmpty)).length ∧
      s.width = ((rows.filter (fun r => !r.isEmpty)).headD []).length := by
  simp only [StringCanvas.render]
  split_ifs with h1 h2 h3
  · subst h1
    constructor
    · simp
    · intro s hs; exact absurd hs (by simp)
  · rw [h2]
    constructor
    · simp
    · intro s hs; exact absurd hs (by simp)
  · constructor
    · rw [mapOpt_isSome]
      constructor
      · intro hall
        refine ⟨h2, h3, ?_⟩
        intro r hr ch hch
        have := hall r hr
        rw [mapOpt_isSome] at this
        exact this ch hch
      · rintro ⟨-, -, hchars⟩
        intro r hr
        rw [mapOpt_isSome]
        exact fun ch hch => hchars r hr ch hch
    · intro s hs
      have hmap := mapOpt_mapOpt_eq_map hs TRANSPARENT
      refine ⟨hmap, ?_, ?_⟩
      · rw [hmap]
        unfold Sprite.height
        rw [List.length_map]
      · rw [hmap]
        unfold Sprite.width
        cases hrows2 : rows.filter (fun r => !r.isEmpty) with
        | nil => exact absurd hrows2 h2
        | cons r t => simp
  · constructor
    · simp only [Option.isSome_none, Bool.false_eq_true, false_iff, not_and]
      intro _ hlen
      exact absurd hlen h3
    · intro s hs; exact absurd hs (by simp)

/-- C3 counterexample to the claim as stated: the input `["K", ""]`
contains an empty string alongside a non-empty row, so the claim demands
failure (and, if anything, a height-2 result); the code filters the
empty row out and renders a 1×1 sprite. -/
theorem render_empty_row_counterexample :
    StringCanvas.render [('K', BLACK)] [['K'], []] = some [[BLACK]] := by
  decide

/-- C5, amended: the render/to_string round trip restores the rows
exactly when the palette maps distinct characters to distinct colors
(injectivity).  With duplicate colors, `reverse_lookup` returns the
first key in insertion order, which need not be the rendered one. -/
theorem render_tostring_roundtrip (p : Palette) (R : List (List Char))
    (hR : R ≠ []) (hne : ∀ r ∈ R, r ≠ [])
    (hlen : ∀ r ∈ R, r.length = (R.headD []).length)
    (hchars : ∀ r ∈ R, ∀ ch ∈ r, (p.find ch).isSome)
    (hinj : ∀ e1 ∈ p, ∀ e2 ∈ p, e1.2 = e2.2 → e1.1 = e2.1) :
    ∃ s, StringCanvas.render p R = some s ∧
      StringCanvas.toStringRows p s = some R := by
  have hfilter : R.filter (fun r => !r.isEmpty) = R := by
    rw [List.filter_eq_self]
    intro r hr
    simp only [Bool.not_eq_eq_eq_not, Bool.not_true, ← Bool.not_eq_true]
    simp only [List.isEmpty_iff]
    exact hne r hr
  have hrender : StringCanvas.render p R =
      mapOpt (fun row => mapOpt (fun ch => p.find ch) row) R := by
    unfold StringCanvas.render
    rw [if_neg hR]
    simp only [hfilter]
    rw [if_neg hR, if_pos hlen]
  have hsome : (StringCanvas.render p R).isSome := by
    rw [hrender, mapOpt_isSome]
    intro r hr
    rw [mapOpt_isSome]
    exact fun ch hch => hchars r hr ch hch
  obtain ⟨s, hs⟩ := Option.isSome_iff_exists.1 hsome
  refine ⟨s, hs, ?_⟩
  rw [hrender] at hs
  have hmap := mapOpt_mapOpt_eq_map hs TRANSPARENT
  -- structure of s
  have hslen : s.length = R.length := by rw [hmap, List.length_map]
  have hwidth : s.width = (R.headD []).length := by
    rw [hmap]
    unfold Sprite.width
    cases hRc : R with
    | nil => exact absurd hRc hR
    | cons r t => simp
  have hrowlen : ∀ row ∈ s, row.length = s.width := by
    intro row hrow
    rw [hmap] at hrow
    obtain ⟨r, hr, hrow2⟩ := List.mem_map.1 hrow
    rw [← hrow2, List.length_map, hwidth]
    exact hlen r hr
  -- evaluate toStringRows
  unfold StringCanvas.toStringRows
  have hH : Sprite.height s = s.length := rfl
  rw [hH]
  have houter :
      mapOpt (fun y => mapOpt (fun x => p.reverseLookup (s.pixel x y))
        (List.range s.width)) (List.range s.length)
      = mapOpt (fun row => mapOpt (fun x =>
          p.reverseLookup (row.getD x TRANSPARENT)) (List.range s.width)) s := by
    have := mapOpt_range_getD (fun row => mapOpt (fun x =>
      p.reverseLookup (row.getD x TRANSPARENT)) (List.range s.width)) s []
    rw [← this]
    apply mapOpt_congr
    intro y hy
    apply mapOpt_congr
    intro x hx
    rfl
  rw [houter]
  have hinner : ∀ row ∈ s,
      mapOpt (fun x => p.reverseLookup (row.getD x TRANSPARENT))
        (List.range s.width)
      = mapOpt (fun c => p.reverseLookup c) row := by
    intro row hrow
    rw [← hrowlen row hrow]
    exact mapOpt_range_getD (fun c => p.reverseLookup c) row TRANSPARENT
  rw [mapOpt_congr hinner]
  rw [hmap, mapOpt_map]
  have hrows : ∀ r ∈ R,
      mapOpt (fun c => p.reverseLookup c)
        (r.map fun ch => (p.find ch).getD TRANSPARENT) = some r := by
    intro r hr
    rw [mapOpt_map]
    apply mapOpt_id
    intro ch hch
    obtain ⟨col, hcol⟩ := Option.isSome_iff_exists.1 (hchars r hr ch hch)
    rw [hcol]
    exact Palette.reverseLookup_of_find p hinj hcol
  exact mapOpt_id _ _ hrows

/-- C5 witness: the round trip at the one-character palette `{'k': black}`
and the single row `"k"`. -/
theorem render_tostring_roundtrip_witness :
    ([['k']] : List (List Char)) ≠ [] ∧
    (∀ r ∈ ([['k']] : List (List Char)), r ≠ []) ∧
    (∀ r ∈ ([['k']] : List (List Char)),
      r.length = (([['k']] : List (List Char)).headD []).length) ∧
    (∀ r ∈ ([['k']] : List (List Char)), ∀ ch ∈ r,
      (Palette.find [('k', BLACK)] ch).isSome) ∧
    (∀ e1 ∈ ([('k', BLACK)] : Palette), ∀ e2 ∈ ([('k', BLACK)] : Palette),
      e1.2 = e2.2 → e1.1 = e2.1) ∧
    ∃ s, StringCanvas.render [('k', BLACK)] [['k']] = some s ∧
      StringCanvas.toStringRows [('k', BLACK)] s = some [['k']] :=
  ⟨by decide, by decide, by decide, by decide, by decide,
    render_tostring_roundtrip [('k', BLACK)] [['k']]
      (by decide) (by decide) (by decide) (by decide) (by decide)⟩

/-- C5 counterexample to the claim as stated: with a palette mapping
both `a` and `b` to black, rendering `["b"]` and converting back yields
`["a"]` (reverse lookup returns the first matching key), not `["b"]`. -/
theorem roundtrip_counterexample :
    (StringCanvas.render [('a', BLACK), ('b', BLACK)] [['b']]).bind
        (StringCanvas.toStringRows [('a', BLACK), ('b', BLACK)])
      = some [['a']] ∧ [['a']] ≠ [['b']] := by
  constructor
  · rfl
  · decide

/-! ## C6: reorder -/

/-- C6, amended: `reorder(names)` compares `set(names)` against the set
of layer names, so it succeeds whenever the two sets coincide — a list
that repeats a layer name (while covering all names) is accepted, and
then the rebuilt stack repeats that layer.  On success the bottom-to-top
name order equals `names` and every resulting layer is one of the
original layers. -/
theorem reorder_characterization (st : LayerStack) (names : List String) :
    ((st.reorder names).isSome ↔
      (∀ n ∈ names, n ∈ st.layerNames) ∧ (∀ n ∈ st.layerNames, n ∈ names)) ∧
    ∀ st2, st.reorder names = some st2 →
      st2.width = st.width ∧ st2.height = st.height ∧
      st2.layerNames = names ∧ ∀ l ∈ st2.layers, l ∈ st.layers := by
  unfold LayerStack.reorder
  split_ifs with hcond
  · have hsome : (mapOpt (fun n => st.layers.reverse.find? fun l => l.name == n)
        names).isSome := by
      rw [mapOpt_isSome]
      intro n hn
      rw [List.find?_isSome]
      obtain ⟨l, hl, hlname⟩ := List.mem_map.1 (hcond.1 n hn)
      exact ⟨l, List.mem_reverse.2 hl, by rw [beq_iff_eq]; exact hlname⟩
    obtain ⟨ls, hls⟩ := Option.isSome_iff_exists.1 hsome
    have haux : ∀ (ns : List String) (ls2 : List Layer),
        List.Forall₂ (fun n l =>
          st.layers.reverse.find? (fun l2 => l2.name == n) = some l) ns ls2 →
        ls2.map (·.name) = ns ∧ ∀ l ∈ ls2, l ∈ st.layers := by
      intro ns ls2 h
      induction h with
      | nil => exact ⟨rfl, by simp⟩
      | cons hab htm ih =>
          refine ⟨?_, ?_⟩
          · rw [List.map_cons, ih.1]
            have := List.find?_some hab
            rw [beq_iff_eq] at this
            rw [this]
          · intro l2 hl2
            rcases List.mem_cons.1 hl2 with rfl | hl2t
            · exact List.mem_reverse.1 (List.mem_of_find?_eq_some hab)
            · exact ih.2 l2 hl2t
    have hstruct := haux names ls ((mapOpt_forall2 _ _ _).1 hls)
    constructor
    · rw [hls]
      constructor
      · intro _; exact hcond
      · intro _; simp
    · intro st2 hst2
      rw [hls] at hst2
      have hst2v : ({ st with layers := ls } : LayerStack) = st2 := by
        have : some ({ st with layers := ls } : LayerStack) = some st2 := hst2
        injection this
      subst hst2v
      exact ⟨rfl, rfl, hstruct.1, hstruct.2⟩
  · constructor
    · constructor
      · intro hfalse; simp at hfalse
      · intro hc; exact absurd hc hcond
    · intro st2 hst2; exact hst2.elim

/-- C6 witness: the amended characterization applied to a 2-layer stack
and the duplicated name list `["a", "a", "b"]`. -/
theorem reorder_characterization_witness :
    ((LayerStack.reorder
        ⟨1, 1, [⟨"a", [[TRANSPARENT]], 1, true, .NORMAL⟩,
                ⟨"b", [[TRANSPARENT]], 1, true, .NORMAL⟩]⟩
        ["a", "a", "b"]).isSome ↔
      (∀ n ∈ ["a", "a", "b"],
        n ∈ LayerStack.layerNames
          ⟨1, 1, [⟨"a", [[TRANSPARENT]], 1, true, .NORMAL⟩,
                  ⟨"b", [[TRANSPARENT]], 1, true, .NORMAL⟩]⟩) ∧
      (∀ n ∈ LayerStack.layerNames
          ⟨1, 1, [⟨"a", [[TRANSPARENT]], 1, true, .NORMAL⟩,
                  ⟨"b", [[TRANSPARENT]], 1, true, .NORMAL⟩]⟩,
        n ∈ ["a", "a", "b"])) ∧
    ∀ st2, LayerStack.reorder
        ⟨1, 1, [⟨"a", [[TRANSPARENT]], 1, true, .NORMAL⟩,
                ⟨"b", [[TRANSPARENT]], 1, true, .NORMAL⟩]⟩
        ["a", "a", "b"] = some st2 →
      st2.width = 1 ∧ st2.height = 1 ∧
      st2.layerNames = ["a", "a", "b"] ∧
      ∀ l ∈ st2.layers,
        l ∈ [⟨"a", [[TRANSPARENT]], 1, true, .NORMAL⟩,
             (⟨"b", [[TRANSPARENT]], 1, true, .NORMAL⟩ : Layer)] :=
  reorder_characterization
    ⟨1, 1, [⟨"a", [[TRANSPARENT]], 1, true, .NORMAL⟩,
            ⟨"b", [[TRANSPARENT]], 1, true, .NORMAL⟩]⟩
    ["a", "a", "b"]

/-- C6 counterexample to the claim as stated: a stack with layers
`a`, `b` accepts `reorder(["a", "a", "b"])` — `set(names)` equals the
layer-name set although `names` is not a permutation — and produces a
three-layer stack with `a` duplicated. -/
theorem reorder_duplicate_counterexample :
    (LayerStack.reorder
        ⟨1, 1, [⟨"a", [[TRANSPARENT]], 1, true, .NORMAL⟩,
                ⟨"b", [[TRANSPARENT]], 1, true, .NORMAL⟩]⟩
        ["a", "a", "b"]).map LayerStack.layerNames = some ["a", "a", "b"] := by
  rfl

/-! ## C4: channel arithmetic (truncation, not rounding; no clamp) -/

theorem div255_mem {c : ℤ} (h0 : 0 ≤ c) (h1 : c ≤ 255) :
    0 ≤ (c : ℚ) / 255 ∧ (c : ℚ) / 255 ≤ 1 := by
  constructor
  · positivity
  · rw [div_le_one (by norm_num : (0:ℚ) < 255)]
    exact_mod_cast h1

theorem alphaComp_mem {sa da : ℚ} (hsa0 : 0 ≤ sa) (hsa1 : sa ≤ 1)
    (hda0 : 0 ≤ da) (hda1 : da ≤ 1) :
    0 ≤ sa + da * (1 - sa) ∧ sa + da * (1 - sa) ≤ 1 := by
  constructor <;> nlinarith

theorem chanNormal_mem {sa da u v : ℚ} (hsa0 : 0 ≤ sa) (hsa1 : sa ≤ 1)
    (hda0 : 0 ≤ da) (hda1 : da ≤ 1) (hu0 : 0 ≤ u) (hu1 : u ≤ 255)
    (hv0 : 0 ≤ v) (hv1 : v ≤ 255) (hne : sa + da * (1 - sa) ≠ 0) :
    0 ≤ (u * sa + v * da * (1 - sa)) / (sa + da * (1 - sa)) ∧
      (u * sa + v * da * (1 - sa)) / (sa + da * (1 - sa)) ≤ 255 := by
  have hpos : 0 < sa + da * (1 - sa) :=
    lt_of_le_of_ne (alphaComp_mem hsa0 hsa1 hda0 hda1).1 (Ne.symm hne)
  have h1sa : 0 ≤ 1 - sa := by linarith
  have hx1 : 0 ≤ u * sa := mul_nonneg hu0 hsa0
  have hx2 : 0 ≤ v * da * (1 - sa) :=
    mul_nonneg (mul_nonneg hv0 hda0) h1sa
  have hy1 : u * sa ≤ 255 * sa := mul_le_mul_of_nonneg_right hu1 hsa0
  have hy2 : v * da * (1 - sa) ≤ 255 * da * (1 - sa) :=
    mul_le_mul_of_nonneg_right (mul_le_mul_of_nonneg_right hv1 hda0) h1sa
  constructor
  · apply div_nonneg _ (le_of_lt hpos)
    linarith
  · rw [div_le_iff₀ hpos]
    nlinarith [hy1, hy2]

theorem chanBlend_mem {sa da b d0 : ℚ} (hsa0 : 0 ≤ sa) (hsa1 : sa ≤ 1)
    (hda0 : 0 ≤ da) (hda1 : da ≤ 1) (hb0 : 0 ≤ b) (hb1 : b ≤ 1)
    (hd00 : 0 ≤ d0) (hd01 : d0 ≤ 1) (hne : sa + da * (1 - sa) ≠ 0) :
    0 ≤ (b * sa + d0 * da * (1 - sa)) / (sa + da * (1 - sa)) * 255 ∧
      (b * sa + d0 * da * (1 - sa)) / (sa + da * (1 - sa)) * 255 ≤ 255 := by
  have hpos : 0 < sa + da * (1 - sa) :=
    lt_of_le_of_ne (alphaComp_mem hsa0 hsa1 hda0 hda1).1 (Ne.symm hne)
  have h1sa : 0 ≤ 1 - sa := by linarith
  have hx1 : 0 ≤ b * sa := mul_nonneg hb0 hsa0
  have hx2 : 0 ≤ d0 * da * (1 - sa) :=
    mul_nonneg (mul_nonneg hd00 hda0) h1sa
  have hy1 : b * sa ≤ 1 * sa := mul_le_mul_of_nonneg_right hb1 hsa0
  have hy2 : d0 * da * (1 - sa) ≤ 1 * da * (1 - sa) :=
    mul_le_mul_of_nonneg_right (mul_le_mul_of_nonneg_right hd01 hda0) h1sa
  have hq0 : 0 ≤ (b * sa + d0 * da * (1 - sa)) / (sa + da * (1 - sa)) := by
    apply div_nonneg _ (le_of_lt hpos)
    linarith
  have hq1 : (b * sa + d0 * da * (1 - sa)) / (sa + da * (1 - sa)) ≤ 1 := by
    rw [div_le_one hpos]
    linarith
  constructor
  · positivity
  · nlinarith

theorem overlayChan_mem {s d : ℚ} (hs0 : 0 ≤ s) (hs1 : s ≤ 1)
    (hd0 : 0 ≤ d) (hd1 : d ≤ 1) :
    0 ≤ overlayChan s d ∧ overlayChan s d ≤ 1 := by
  unfold overlayChan
  split_ifs with h
  · constructor <;> nlinarith
  · constructor <;> nlinarith

theorem blendRGB_mem (mode : BlendMode) {sr sg sb dr dg db : ℚ}
    (h1 : 0 ≤ sr ∧ sr ≤ 1) (h2 : 0 ≤ sg ∧ sg ≤ 1) (h3 : 0 ≤ sb ∧ sb ≤ 1)
    (h4 : 0 ≤ dr ∧ dr ≤ 1) (h5 : 0 ≤ dg ∧ dg ≤ 1) (h6 : 0 ≤ db ∧ db ≤ 1) :
    (0 ≤ (blendRGB mode sr sg sb dr dg db).1 ∧
      (blendRGB mode sr sg sb dr dg db).1 ≤ 1) ∧
    (0 ≤ (blendRGB mode sr sg sb dr dg db).2.1 ∧
      (blendRGB mode sr sg sb dr dg db).2.1 ≤ 1) ∧
    (0 ≤ (blendRGB mode sr sg sb dr dg db).2.2 ∧
      (blendRGB mode sr sg sb dr dg db).2.2 ≤ 1) := by
  obtain ⟨hs1, hs1b⟩ := h1
  obtain ⟨hs2, hs2b⟩ := h2
  obtain ⟨hs3, hs3b⟩ := h3
  obtain ⟨hd1, hd1b⟩ := h4
  obtain ⟨hd2, hd2b⟩ := h5
  obtain ⟨hd3, hd3b⟩ := h6
  cases mode with
  | NORMAL => exact ⟨⟨hs1, hs1b⟩, ⟨hs2, hs2b⟩, ⟨hs3, hs3b⟩⟩
  | MULTIPLY =>
      refine ⟨⟨?_, ?_⟩, ⟨?_, ?_⟩, ⟨?_, ?_⟩⟩ <;> · simp only [blendRGB]; nlinarith
  | SCREEN =>
      refine ⟨⟨?_, ?_⟩, ⟨?_, ?_⟩, ⟨?_, ?_⟩⟩ <;> · simp only [blendRGB]; nlinarith
  | OVERLAY =>
      exact ⟨overlayChan_mem hs1 hs1b hd1 hd1b,
        overlayChan_mem hs2 hs2b hd2 hd2b, overlayChan_mem hs3 hs3b hd3 hd3b⟩
  | ADD =>
      simp only [blendRGB]
      exact ⟨⟨le_min (by linarith) (by norm_num), min_le_right _ _⟩,
        ⟨le_min (by linarith) (by norm_num), min_le_right _ _⟩,
        ⟨le_min (by linarith) (by norm_num), min_le_right _ _⟩⟩
  | SUBTRACT =>
      simp only [blendRGB]
      exact ⟨⟨le_max_right _ _, max_le (by linarith) (by norm_num)⟩,
        ⟨le_max_right _ _, max_le (by linarith) (by norm_num)⟩,
        ⟨le_max_right _ _, max_le (by linarith) (by norm_num)⟩⟩

theorem transparent_inRange : TRANSPARENT.inRange := by
  norm_num [Color.inRange, TRANSPARENT]

set_option maxHeartbeats 2000000 in
/-- C4, amended: every final channel of `Sprite.paste`'s compositing and
of `_blend_pixel` (all modes) is the exact real-valued formula truncated
toward zero by Python's `int()` — not rounded to nearest — and no
clamping is performed anywhere; nevertheless, for 8-bit input pixels and
a layer opacity in `[0, 1]`, every output channel lies in `[0, 255]`. -/
theorem blend_channels_in_range (src dst : Color) (mode : BlendMode) (o : ℚ)
    (hsrc : src.inRange) (hdst : dst.inRange) (ho0 : 0 ≤ o) (ho1 : o ≤ 1) :
    (pasteBlend src dst).inRange ∧ (blendPixel src dst mode o).inRange := by
  obtain ⟨hsr0, hsr1, hsg0, hsg1, hsb0, hsb1, hsa0, hsa1⟩ := hsrc
  obtain ⟨hdr0, hdr1, hdg0, hdg1, hdb0, hdb1, hda0, hda1⟩ := hdst
  have hsaQ := div255_mem hsa0 hsa1
  have hdaQ := div255_mem hda0 hda1
  have hcastr : ∀ {c : ℤ}, 0 ≤ c → (0:ℚ) ≤ (c:ℚ) := fun h => by exact_mod_cast h
  have hcastr2 : ∀ {c : ℤ}, c ≤ 255 → (c:ℚ) ≤ 255 := fun h => by exact_mod_cast h
  constructor
  · simp only [pasteBlend]
    split_ifs with h0 h255 houta
    · exact ⟨hdr0, hdr1, hdg0, hdg1, hdb0, hdb1, hda0, hda1⟩
    · exact ⟨hsr0, hsr1, hsg0, hsg1, hsb0, hsb1, hsa0, hsa1⟩
    · exact transparent_inRange
    · have hR := chanNormal_mem hsaQ.1 hsaQ.2 hdaQ.1 hdaQ.2
        (hcastr hsr0) (hcastr2 hsr1) (hcastr hdr0) (hcastr2 hdr1) houta
      have hG := chanNormal_mem hsaQ.1 hsaQ.2 hdaQ.1 hdaQ.2
        (hcastr hsg0) (hcastr2 hsg1) (hcastr hdg0) (hcastr2 hdg1) houta
      have hB := chanNormal_mem hsaQ.1 hsaQ.2 hdaQ.1 hdaQ.2
        (hcastr hsb0) (hcastr2 hsb1) (hcastr hdb0) (hcastr2 hdb1) houta
      have hAv := alphaComp_mem hsaQ.1 hsaQ.2 hdaQ.1 hdaQ.2
      have hA : 0 ≤ ((src.a : ℚ)/255 + (dst.a : ℚ)/255 * (1 - (src.a : ℚ)/255)) * 255 ∧
          ((src.a : ℚ)/255 + (dst.a : ℚ)/255 * (1 - (src.a : ℚ)/255)) * 255 ≤ 255 := by
        constructor
        · nlinarith [hAv.1]
        · nlinarith [hAv.2]
      exact ⟨(pyInt_range hR.1 hR.2).1, (pyInt_range hR.1 hR.2).2,
        (pyInt_range hG.1 hG.2).1, (pyInt_range hG.1 hG.2).2,
        (pyInt_range hB.1 hB.2).1, (pyInt_range hB.1 hB.2).2,
        (pyInt_range hA.1 hA.2).1, (pyInt_range hA.1 hA.2).2⟩
  · simp only [blendPixel]
    have hsaO : 0 ≤ (src.a : ℚ) / 255 * o ∧ (src.a : ℚ) / 255 * o ≤ 1 := by
      constructor
      · exact mul_nonneg hsaQ.1 ho0
      · nlinarith [hsaQ.1, hsaQ.2]
    split_ifs with hz hnorm houta houta2
    · exact ⟨hdr0, hdr1, hdg0, hdg1, hdb0, hdb1, hda0, hda1⟩
    · exact transparent_inRange
    · have hR := chanNormal_mem hsaO.1 hsaO.2 hdaQ.1 hdaQ.2
        (hcastr hsr0) (hcastr2 hsr1) (hcastr hdr0) (hcastr2 hdr1) houta
      have hG := chanNormal_mem hsaO.1 hsaO.2 hdaQ.1 hdaQ.2
        (hcastr hsg0) (hcastr2 hsg1) (hcastr hdg0) (hcastr2 hdg1) houta
      have hB := chanNormal_mem hsaO.1 hsaO.2 hdaQ.1 hdaQ.2
        (hcastr hsb0) (hcastr2 hsb1) (hcastr hdb0) (hcastr2 hdb1) houta
      have hAv := alphaComp_mem hsaO.1 hsaO.2 hdaQ.1 hdaQ.2
      have hA : 0 ≤ ((src.a : ℚ)/255 * o + (dst.a : ℚ)/255 * (1 - (src.a : ℚ)/255 * o)) * 255 ∧
          ((src.a : ℚ)/255 * o + (dst.a : ℚ)/255 * (1 - (src.a : ℚ)/255 * o)) * 255 ≤ 255 := by
        constructor
        · nlinarith [hAv.1]
        · nlinarith [hAv.2]
      exact ⟨(pyInt_range hR.1 hR.2).1, (pyInt_range hR.1 hR.2).2,
        (pyInt_range hG.1 hG.2).1, (pyInt_range hG.1 hG.2).2,
        (pyInt_range hB.1 hB.2).1, (pyInt_range hB.1 hB.2).2,
        (pyInt_range hA.1 hA.2).1, (pyInt_range hA.1 hA.2).2⟩
    · exact transparent_inRange
    · have hsrQ := div255_mem hsr0 hsr1
      have hsgQ := div255_mem hsg0 hsg1
      have hsbQ := div255_mem hsb0 hsb1
      have hdrQ := div255_mem hdr0 hdr1
      have hdgQ := div255_mem hdg0 hdg1
      have hdbQ := div255_mem hdb0 hdb1
      have hbs := blendRGB_mem mode hsrQ hsgQ hsbQ hdrQ hdgQ hdbQ
      have hR := chanBlend_mem hsaO.1 hsaO.2 hdaQ.1 hdaQ.2
        hbs.1.1 hbs.1.2 hdrQ.1 hdrQ.2 houta2
      have hG := chanBlend_mem hsaO.1 hsaO.2 hdaQ.1 hdaQ.2
        hbs.2.1.1 hbs.2.1.2 hdgQ.1 hdgQ.2 houta2
      have hB := chanBlend_mem hsaO.1 hsaO.2 hdaQ.1 hdaQ.2
        hbs.2.2.1 hbs.2.2.2 hdbQ.1 hdbQ.2 houta2
      have hAv := alphaComp_mem hsaO.1 hsaO.2 hdaQ.1 hdaQ.2
      have hA : 0 ≤ ((src.a : ℚ)/255 * o + (dst.a : ℚ)/255 * (1 - (src.a : ℚ)/255 * o)) * 255 ∧
          ((src.a : ℚ)/255 * o + (dst.a : ℚ)/255 * (1 - (src.a : ℚ)/255 * o)) * 255 ≤ 255 := by
        constructor
        · nlinarith [hAv.1]
        · nlinarith [hAv.2]
      exact ⟨(pyInt_range hR.1 hR.2).1, (pyInt_range hR.1 hR.2).2,
        (pyInt_range hG.1 hG.2).1, (pyInt_range hG.1 hG.2).2,
        (pyInt_range hB.1 hB.2).1, (pyInt_range hB.1 hB.2).2,
        (pyInt_range hA.1 hA.2).1, (pyInt_range hA.1 hA.2).2⟩

/-- C4 witness: the amended range theorem at a concrete semi-transparent
blend. -/
theorem blend_channels_in_range_witness :
    Color.inRange ⟨200, 100, 50, 128⟩ ∧ Color.inRange ⟨10, 20, 30, 200⟩ ∧
    (0 : ℚ) ≤ 1/2 ∧ (1/2 : ℚ) ≤ 1 ∧
    (pasteBlend ⟨200, 100, 50, 128⟩ ⟨10, 20, 30, 200⟩).inRange ∧
    (blendPixel ⟨200, 100, 50, 128⟩ ⟨10, 20, 30, 200⟩ .MULTIPLY (1/2)).inRange :=
  ⟨by norm_num [Color.inRange], by norm_num [Color.inRange],
    by norm_num, by norm_num,
    (blend_channels_in_range ⟨200, 100, 50, 128⟩ ⟨10, 20, 30, 200⟩ .MULTIPLY (1/2)
      (by norm_num [Color.inRange]) (by norm_num [Color.inRange])
      (by norm_num) (by norm_num)).1,
    (blend_channels_in_range ⟨200, 100, 50, 128⟩ ⟨10, 20, 30, 200⟩ .MULTIPLY (1/2)
      (by norm_num [Color.inRange]) (by norm_num [Color.inRange])
      (by norm_num) (by norm_num)).2⟩

/-- C4 counterexample to the claim as stated: pasting source pixel
`(1, 0, 0, 128)` over opaque `(0, 0, 0, 255)` gives red channel
`int(128/255) = 0`, while rounding the real-valued formula to the
nearest integer (and clamping) gives `1`. -/
theorem blend_rounding_counterexample :
    (pasteBlend ⟨1, 0, 0, 128⟩ ⟨0, 0, 0, 255⟩).r = 0 ∧
    max 0 (min 255 (round
      (((1 : ℚ) * ((128 : ℚ) / 255) + (0 : ℚ) * ((255 : ℚ) / 255) * (1 - (128 : ℚ) / 255)) /
        (((128 : ℚ) / 255) + ((255 : ℚ) / 255) * (1 - (128 : ℚ) / 255))))) = 1 := by
  constructor
  · norm_num [pasteBlend, pyInt]
  · norm_num [round_eq]

/-! ## C8: a zero-opacity layer contributes nothing to flatten -/

theorem blendPixel_opacity_zero (src dst : Color) (mode : BlendMode) :
    blendPixel src dst mode 0 = dst := by
  simp [blendPixel]

theorem mapIdx_const_id {α : Type} (l : List α) :
    List.mapIdx (fun _ a => a) l = l := by
  rw [List.mapIdx_eq_enum_map]
  have huncurry : Function.uncurry (fun (_ : ℕ) (a : α) => a) = Prod.snd := rfl
  rw [huncurry, List.enum_map_snd]

theorem applyLayer_opacity_zero (l : Layer) (hl : l.opacity = 0) (grid : Sprite) :
    LayerStack.applyLayer l grid = grid := by
  unfold LayerStack.applyLayer
  simp only [hl, blendPixel_opacity_zero, ite_self]
  rw [show (fun (_ : ℕ) (row : List Color) => List.mapIdx (fun _ dst => dst) row)
      = fun _ row => row from ?_]
  · exact mapIdx_const_id grid
  · funext y row
    exact mapIdx_const_id row

/-- C8: a layer with opacity 0 contributes nothing: flattening a stack
containing it equals flattening the same stack with that layer removed,
whatever its blend mode and visibility and whatever the other layers
are. -/
theorem flatten_zero_opacity (w h : ℕ) (ls1 ls2 : List Layer) (l : Layer)
    (hl : l.opacity = 0) :
    LayerStack.flatten ⟨w, h, ls1 ++ l :: ls2⟩ =
      LayerStack.flatten ⟨w, h, ls1 ++ ls2⟩ := by
  unfold LayerStack.flatten
  rw [List.foldl_append, List.foldl_cons, List.foldl_append]
  congr 1
  by_cases hv : l.visible
  · simp [hv, applyLayer_opacity_zero l hl]
  · simp [hv]

/-- C8 witness: the theorem applied to a concrete 1×1 stack — a visible
white base layer plus an invisible-content black layer at opacity 0. -/
theorem flatten_zero_opacity_witness :
    Layer.opacity ⟨"top", [[⟨0, 0, 0, 255⟩]], 0, true, .MULTIPLY⟩ = 0 ∧
    LayerStack.flatten ⟨1, 1,
        [⟨"base", [[⟨255, 255, 255, 255⟩]], 1, true, .NORMAL⟩,
         ⟨"top", [[⟨0, 0, 0, 255⟩]], 0, true, .MULTIPLY⟩]⟩ =
      LayerStack.flatten ⟨1, 1,
        [⟨"base", [[⟨255, 255, 255, 255⟩]], 1, true, .NORMAL⟩]⟩ :=
  ⟨rfl, flatten_zero_opacity 1 1
    [⟨"base", [[⟨255, 255, 255, 255⟩]], 1, true, .NORMAL⟩] []
    ⟨"top", [[⟨0, 0, 0, 255⟩]], 0, true, .MULTIPLY⟩ rfl⟩

/-! ## C10: opacity is never validated -/

theorem updateFirst_isSome (ls : List Layer) (name : String) (f : Layer → Layer)
    (h : ∃ l ∈ ls, l.name = name) :
    (LayerStack.updateFirst ls name f).isSome := by
  induction ls with
  | nil => obtain ⟨l, hl, -⟩ := h; exact absurd hl (by simp)
  | cons l t ih =>
      unfold LayerStack.updateFirst
      by_cases hn : l.name = name
      · rw [if_pos hn]; rfl
      · rw [if_neg hn]
        rw [Option.isSome_map']
        apply ih
        obtain ⟨l2, hl2, hl2n⟩ := h
        rcases List.mem_cons.1 hl2 with rfl | hl2t
        · exact absurd hl2n hn
        · exact ⟨l2, hl2t, hl2n⟩

/-- C10: neither `add_layer` nor `set_opacity` validates the opacity
value — any rational (modelling any float, also negative or above 1)
is accepted whenever the name and size checks pass — and `flatten`
feeds it straight into `sa = (src.a/255)*opacity`: with opacity 2 a
fully opaque pixel flattens to an alpha channel of 510, outside
`[0, 255]`. -/
theorem opacity_unvalidated :
    (∀ (st : LayerStack) (name : String) (sprite : Sprite) (o : ℚ) (mode : BlendMode),
      (∀ l ∈ st.layers, l.name ≠ name) →
      sprite.width = st.width → sprite.height = st.height →
      (st.addLayer name sprite o mode none).isSome) ∧
    (∀ (st : LayerStack) (name : String) (o : ℚ),
      (∃ l ∈ st.layers, l.name = name) → (st.setOpacity name o).isSome) ∧
    LayerStack.flatten ⟨1, 1, [⟨"a", [[⟨10, 20, 30, 255⟩]], 2, true, .NORMAL⟩]⟩
      = [[⟨10, 20, 30, 510⟩]] := by
  refine ⟨?_, ?_, ?_⟩
  · intro st name sprite o mode hfresh hw hh
    unfold LayerStack.addLayer
    have hany : (st.layers.any fun l => l.name == name) = false := by
      rw [List.any_eq_false]
      intro l hl
      simpa using hfresh l hl
    rw [if_neg (by rw [hany]; exact Bool.false_ne_true)]
    rw [if_neg (by push_neg; exact ⟨hw, hh⟩)]
    rfl
  · intro st name o h
    unfold LayerStack.setOpacity
    rw [Option.isSome_map']
    exact updateFirst_isSome st.layers name _ h
  · unfold LayerStack.flatten LayerStack.applyLayer Sprite.empty
    simp only [List.foldl_cons, List.foldl_nil, List.replicate, if_true]
    simp only [List.mapIdx_cons, List.mapIdx_nil]
    norm_num [Sprite.pixel, blendPixel, pyInt, TRANSPARENT]

/-- C10 witness: the unvalidated-opacity theorem at concrete stacks and
the out-of-range opacities 7 and -3. -/
theorem opacity_unvalidated_witness :
    ((⟨1, 1, []⟩ : LayerStack).addLayer "x" [[TRANSPARENT]] 7 .NORMAL none).isSome ∧
    ((⟨1, 1, [⟨"a", [[TRANSPARENT]], 1, true, .NORMAL⟩]⟩ : LayerStack).setOpacity
        "a" (-3)).isSome :=
  ⟨opacity_unvalidated.1 ⟨1, 1, []⟩ "x" [[TRANSPARENT]] 7 .NORMAL
      (by simp) rfl rfl,
    opacity_unvalidated.2.1 ⟨1, 1, [⟨"a", [[TRANSPARENT]], 1, true, .NORMAL⟩]⟩
      "a" (-3) ⟨_, List.mem_cons_self _ _, rfl⟩⟩

/-! ## C7: memoization of the spec evaluator -/

theorem assocFind_assocSet_self (rs : Results) (n : String) (s : Sprite) :
    assocFind (assocSet rs n s) n = some s := by
  induction rs with
  | nil => simp [assocSet, assocFind]
  | cons p t ih =>
      obtain ⟨k, v⟩ := p
      unfold assocSet
      by_cases hk : k = n
      · rw [if_pos hk]
        unfold assocFind
        rw [if_pos hk]
      · rw [if_neg hk]
        unfold assocFind
        rw [if_neg hk]
        exact ih

theorem assocFind_assocSet_ne (rs : Results) (n k : String) (s : Sprite)
    (hkn : k ≠ n) : assocFind (assocSet rs n s) k = assocFind rs k := by
  induction rs with
  | nil =>
      unfold assocSet assocFind
      rw [if_neg fun h => hkn h.symm]
      rfl
  | cons p t ih =>
      obtain ⟨k0, v0⟩ := p
      unfold assocSet
      by_cases hk0 : k0 = n
      · rw [if_pos hk0]
        unfold assocFind
        have hk0k : ¬ k0 = k := fun h => hkn (by rw [← h, hk0])
        rw [if_neg hk0k, if_neg hk0k]
      · rw [if_neg hk0]
        unfold assocFind
        by_cases hk0k : k0 = k
        · rw [if_pos hk0k, if_pos hk0k]
        · rw [if_neg hk0k, if_neg hk0k]
          exact ih

theorem resolveList_preserves {κ : Type}
    (resolve : String → Results → Option (Results × Sprite))
    (hres : PreservesMemo resolve) :
    ∀ (refs : List (κ × String)) (rs rs2 : Results) (out : List (κ × Sprite)),
      resolveList resolve refs rs = some (rs2, out) →
      ∀ k v, assocFind rs k = some v → assocFind rs2 k = some v := by
  intro refs
  induction refs with
  | nil =>
      intro rs rs2 out h k v hv
      unfold resolveList at h
      injection h with h2
      injection h2 with ha hb
      rw [← ha]
      exact hv
  | cons p t ih =>
      obtain ⟨k0, n0⟩ := p
      intro rs rs2 out h k v hv
      unfold resolveList at h
      cases hr : resolve n0 rs with
      | none => simp only [hr] at h; exact absurd h (by simp)
      | some pr =>
          obtain ⟨rs1, s1⟩ := pr
          simp only [hr] at h
          cases hrl : resolveList resolve t rs1 with
          | none => simp only [hrl] at h; exact absurd h (by simp)
          | some pr2 =>
              obtain ⟨rs3, ss⟩ := pr2
              simp only [hrl] at h
              injection h with h2
              injection h2 with ha hb
              rw [← ha]
              exact ih rs1 rs3 ss hrl k v (hres n0 rs rs1 s1 hr k v hv)

theorem buildStack_preserves
    (resolve : String → Results → Option (Results × Sprite))
    (hres : PreservesMemo resolve) :
    ∀ (entries : List LayerEntry) (rs rs2 : Results) (st st2 : LayerStack),
      buildStack resolve entries rs st = some (rs2, st2) →
      ∀ k v, assocFind rs k = some v → assocFind rs2 k = some v := by
  intro entries
  induction entries with
  | nil =>
      intro rs rs2 st st2 h k v hv
      unfold buildStack at h
      injection h with h2
      injection h2 with ha hb
      rw [← ha]
      exact hv
  | cons e t ih =>
      intro rs rs2 st st2 h k v hv
      unfold buildStack at h
      cases hr : resolve e.ref rs with
      | none => simp only [hr] at h; exact absurd h (by simp)
      | some pr =>
          obtain ⟨rs1, s1⟩ := pr
          simp only [hr] at h
          cases hal : st.addLayer e.layerName s1 e.opacity e.mode none with
          | none => simp only [hal] at h; exact absurd h (by simp)
          | some st1 =>
              simp only [hal] at h
              exact ih rs1 rs2 st1 st2 h k v (hres e.ref rs rs1 s1 hr k v hv)

theorem renderDefn_preserves (pal : Palette)
    (resolve : String → Results → Option (Results × Sprite))
    (hres : PreservesMemo resolve) :
    ∀ (defn : Defn) (rs rs2 : Results) (sp : Sprite),
      renderDefn pal resolve defn rs = some (rs2, sp) →
      ∀ k v, assocFind rs k = some v → assocFind rs2 k = some v := by
  intro defn rs rs2 sp h k v hv
  cases defn with
  | block rows =>
      simp only [renderDefn] at h
      cases hrd : StringCanvas.render pal rows with
      | none => simp only [hrd] at h; exact absurd h (by simp)
      | some s2 =>
          simp only [hrd] at h
          injection h with h2
          injection h2 with ha hb
          rw [← ha]
          exact hv
  | strip frames =>
      simp only [renderDefn] at h
      by_cases hf : frames = []
      · rw [if_pos hf] at h; exact absurd h (by simp)
      · rw [if_neg hf] at h
        cases hrl : resolveList resolve (frames.map fun n => ((), n)) rs with
        | none => simp only [hrl] at h; exact absurd h (by simp)
        | some pr =>
            obtain ⟨rs1, ss⟩ := pr
            simp only [hrl] at h
            cases hsp : stripToSprite (ss.map (·.2)) with
            | none => simp only [hsp] at h; exact absurd h (by simp)
            | some s2 =>
                simp only [hsp] at h
                injection h with h2
                injection h2 with ha hb
                rw [← ha]
                exact resolveList_preserves resolve hres _ rs rs1 ss hrl k v hv
  | grid refs columns padding =>
      simp only [renderDefn] at h
      by_cases hf : refs = []
      · rw [if_pos hf] at h; exact absurd h (by simp)
      · rw [if_neg hf] at h
        cases hrl : resolveList resolve refs rs with
        | none => simp only [hrl] at h; exact absurd h (by simp)
        | some pr =>
            obtain ⟨rs1, pairs⟩ := pr
            simp only [hrl] at h
            cases hsp : gridToSprite pairs columns padding with
            | none => simp only [hsp] at h; exact absurd h (by simp)
            | some s2 =>
                simp only [hsp] at h
                injection h with h2
                injection h2 with ha hb
                rw [← ha]
                exact resolveList_preserves resolve hres _ rs rs1 pairs hrl k v hv
  | tilemap tilesetRefs grid =>
      simp only [renderDefn] at h
      by_cases hf : tilesetRefs = []
      · rw [if_pos hf] at h; exact absurd h (by simp)
      · rw [if_neg hf] at h
        by_cases hg : grid = []
        · rw [if_pos hg] at h; exact absurd h (by simp)
        · rw [if_neg hg] at h
          cases hrl : resolveList resolve tilesetRefs rs with
          | none => simp only [hrl] at h; exact absurd h (by simp)
          | some pr =>
              obtain ⟨rs1, tiles⟩ := pr
              simp only [hrl] at h
              cases hsp : tileMapToSprite tiles grid with
              | none => simp only [hsp] at h; exact absurd h (by simp)
              | some s2 =>
                  simp only [hsp] at h
                  injection h with h2
                  injection h2 with ha hb
                  rw [← ha]
                  exact resolveList_preserves resolve hres _ rs rs1 tiles hrl k v hv
  | layers width height entries =>
      simp only [renderDefn] at h
      cases entries with
      | nil => exact absurd h (by simp)
      | cons first rest =>
          cases hr : resolve first.ref rs with
          | none => simp only [hr] at h; exact absurd h (by simp)
          | some pr =>
              obtain ⟨rs1, s1⟩ := pr
              simp only [hr] at h
              cases hbs : buildStack resolve (first :: rest) rs1
                  ⟨width.getD s1.width, height.getD s1.height, []⟩ with
              | none => simp only [hbs] at h; exact absurd h (by simp)
              | some pr2 =>
                  obtain ⟨rs3, stack⟩ := pr2
                  simp only [hbs] at h
                  injection h with h2
                  injection h2 with ha hb
                  rw [← ha]
                  exact buildStack_preserves resolve hres _ rs1 rs3 _ _ hbs k v
                    (hres first.ref rs rs1 s1 hr k v hv)

theorem ensureRendered_preserves :
    ∀ (fuel : ℕ) (defs : List (String × Defn)) (pal : Palette),
      PreservesMemo (ensureRendered fuel defs pal) := by
  intro fuel
  induction fuel with
  | zero =>
      intro defs pal n rs rs2 sp h
      exact absurd h (by simp [ensureRendered])
  | succ fuel ih =>
      intro defs pal n rs rs2 sp h k v hv
      unfold ensureRendered at h
      cases hm : assocFind rs n with
      | some s0 =>
          simp only [hm] at h
          injection h with h2
          injection h2 with ha hb
          rw [← ha]
          exact hv
      | none =>
          simp only [hm] at h
          cases hd : assocFind defs n with
          | none => simp only [hd] at h; exact absurd h (by simp)
          | some defn =>
              simp only [hd] at h
              cases hr : renderDefn pal (ensureRendered fuel defs pal) defn rs with
              | none => simp only [hr] at h; exact absurd h (by simp)
              | some pr =>
                  obtain ⟨rs1, sp1⟩ := pr
                  simp only [hr] at h
                  injection h with h2
                  injection h2 with ha hb
                  rw [← ha]
                  have hpres := renderDefn_preserves pal
                    (ensureRendered fuel defs pal) (ih defs pal) defn rs rs1 sp1 hr k v hv
                  have hkn : k ≠ n := by
                    intro hkn
                    rw [hkn, hm] at hv
                    exact Option.noConfusion hv
                  rw [assocFind_assocSet_ne rs1 n k sp1 hkn]
                  exact hpres

/-- C7: within one evaluation, `_ensure_rendered` memoizes by name: a
call on an already-rendered name returns the memoized sprite with the
memo table untouched (no re-evaluation), and any successful call records
its own result under its name while leaving every pre-existing memo
entry intact — so each name is computed at most once and all later
references see that single result. -/
theorem spec_memoization :
    (∀ (fuel : ℕ) (defs : List (String × Defn)) (pal : Palette) (name : String)
        (results : Results) (s : Sprite),
      0 < fuel → assocFind results name = some s →
      ensureRendered fuel defs pal name results = some (results, s)) ∧
    (∀ (fuel : ℕ) (defs : List (String × Defn)) (pal : Palette) (name : String)
        (results results2 : Results) (s : Sprite),
      ensureRendered fuel defs pal name results = some (results2, s) →
      assocFind results2 name = some s ∧
      ∀ k v, assocFind results k = some v → assocFind results2 k = some v) := by
  constructor
  · intro fuel defs pal name results s hfuel hmemo
    obtain ⟨f, rfl⟩ : ∃ f, fuel = f + 1 := ⟨fuel - 1, by omega⟩
    unfold ensureRendered
    simp only [hmemo]
  · intro fuel defs pal name results results2 s h
    refine ⟨?_, fun k v hv =>
      ensureRendered_preserves fuel defs pal name results results2 s h k v hv⟩
    cases fuel with
    | zero => exact absurd h (by simp [ensureRendered])
    | succ f =>
        unfold ensureRendered at h
        cases hm : assocFind results name with
        | some s0 =>
            simp only [hm] at h
            injection h with h2
            injection h2 with ha hb
            rw [← ha, ← hb]
            exact hm
        | none =>
            simp only [hm] at h
            cases hd : assocFind defs name with
            | none => simp only [hd] at h; exact absurd h (by simp)
            | some defn =>
                simp only [hd] at h
                cases hr : renderDefn pal (ensureRendered f defs pal) defn results with
                | none => simp only [hr] at h; exact absurd h (by simp)
                | some pr =>
                    obtain ⟨rs1, sp1⟩ := pr
                    simp only [hr] at h
                    injection h with h2
                    injection h2 with ha hb
                    rw [← ha, ← hb]
                    exact assocFind_assocSet_self rs1 name sp1

/-- C7 witness: the memoization contract at a concrete one-definition
spec — a memo hit returns the stored sprite unchanged, and a fresh
evaluation stores its result under the name. -/
theorem spec_memoization_witness :
    (0 < 1 ∧
      assocFind [("a", ([[BLACK]] : Sprite))] "a" = some [[BLACK]] ∧
      ensureRendered 1 [("a", Defn.block [['x']])] [('x', BLACK)] "a"
        [("a", [[BLACK]])] = some ([("a", [[BLACK]])], [[BLACK]])) ∧
    (ensureRendered 1 [("a", Defn.block [['x']])] [('x', BLACK)] "a" []
        = some ([("a", [[BLACK]])], [[BLACK]]) ∧
      assocFind [("a", ([[BLACK]] : Sprite))] "a" = some [[BLACK]]) :=
  ⟨⟨by norm_num, by decide,
    spec_memoization.1 1 [("a", Defn.block [['x']])] [('x', BLACK)] "a"
      [("a", [[BLACK]])] [[BLACK]] (by norm_num) (by decide)⟩,
   ⟨by decide,
    (spec_memoization.2 1 [("a", Defn.block [['x']])] [('x', BLACK)] "a"
      [] [("a", [[BLACK]])] [[BLACK]] (by decide)).1⟩⟩

end Pixeldot
